import Mathlib

/-!
Verification development for the Kain verification bot.

Shallow embedding of the decision engine (`checkRequirements`), the
attachment validator (`validateAttachment`), the anti-abuse cooldown gate
(`checkCooldown` / `setCooldown`), the OCR entity extractors
(`parseOCRText` in both source variants) and the secondary evidence parser
(`parseMapleRanksEmbed`), together with theorems settling the spec claims.

JavaScript conventions are embedded explicitly: nullable values become
`Option`, the JS falsiness of `""`, `0`, `null`, `undefined` is modelled
where the source relies on it, ASCII `toLowerCase` becomes a per-character
map, and the concrete regular expressions of the source are embedded as
dedicated scanners over `List Char` with JavaScript `exec`/`g` semantics
(leftmost match, continue after the match end).
-/

namespace KainBot

/-! ## Configuration (src/src/config.js) -/

def REQUIRED_CLASS : String := "kain"

def REQUIRED_LEVEL : Int := 240

def COOLDOWN_MS : Int := 5 * 60 * 1000

def MAX_FILE_SIZE : Nat := 10 * 1024 * 1024

def ALLOWED_IMAGE_TYPES : List String := ["image/png", "image/jpeg", "image/jpg", "image/webp"]

def ALLOWED_EXTENSIONS : List String := [".png", ".jpg", ".jpeg", ".webp"]

/-! ## Small string helpers shared by the embeddings -/

/-- ASCII `String.prototype.toLowerCase`, applied character by character. -/
def lowerStr (s : String) : String := ⟨s.data.map Char.toLower⟩

/-- JS falsiness of an optional string (`null`/`undefined`/`""` are falsy). -/
def strFalsy : Option String → Bool
  | none => true
  | some s => s == ""

/-- Boolean prefix test on character lists. -/
def listIsPrefixOf : List Char → List Char → Bool
  | [], _ => true
  | _ :: _, [] => false
  | a :: as, b :: bs => a == b && listIsPrefixOf as bs

/-- Boolean substring test on character lists (JS `String.prototype.includes`). -/
def listContainsSub (needle : List Char) : List Char → Bool
  | [] => listIsPrefixOf needle []
  | c :: rest => listIsPrefixOf needle (c :: rest) || listContainsSub needle rest

/-- JS `haystack.includes(needle)` on strings. -/
def containsSubstr (haystack needle : String) : Bool :=
  listContainsSub needle.data haystack.data

/-! ## Decision engine (src/src/verifier.js, checkRequirements) -/

/-- Canonical reason codes, abstracting the message strings of config.js.
`FAIL_LOW_LEVEL` carries the detected level interpolated into its message. -/
inductive Reason where
  | SUCCESS : Reason
  | FAIL_NO_CLASS : Reason
  | FAIL_WRONG_CLASS : Reason
  | FAIL_NO_LEVEL : Reason
  | FAIL_LOW_LEVEL : Int → Reason
  | FAIL_INVALID_IMAGE : Reason
  | FAIL_FILE_TOO_LARGE : Reason
deriving DecidableEq, Repr

/-- Result shape of `checkRequirements`. -/
structure CheckResult where
  success : Bool
  reason : Reason
deriving DecidableEq, Repr

/-- Embedding of `checkRequirements(detectedClass, detectedLevel)`.
The source tests `!detectedClass` (falsy: null/undefined/empty string),
then case-insensitive inequality with `config.REQUIRED_CLASS`, then
`detectedLevel === null || detectedLevel === undefined`, then
`detectedLevel < config.REQUIRED_LEVEL`. -/
def checkRequirements (detectedClass : Option String) (detectedLevel : Option Int) :
    CheckResult :=
  if strFalsy detectedClass then
    ⟨false, Reason.FAIL_NO_CLASS⟩
  else if lowerStr (detectedClass.getD "") ≠ lowerStr REQUIRED_CLASS then
    ⟨false, Reason.FAIL_WRONG_CLASS⟩
  else
    match detectedLevel with
    | none => ⟨false, Reason.FAIL_NO_LEVEL⟩
    | some lvl =>
      if lvl < REQUIRED_LEVEL then ⟨false, Reason.FAIL_LOW_LEVEL lvl⟩
      else ⟨true, Reason.SUCCESS⟩

/-! ## Anti-abuse cooldown gate (src/src/utils.js) -/

/-- The `cooldowns` Map, as an association list userId ↦ timestamp (ms). -/
abbrev CooldownMap := List (String × Int)

/-- Embedding of `checkCooldown(userId)` at time `now`.
Returns (onCooldown, remainingTime, updated map); the source lazily deletes
an expired entry.  `!lastAttempt` in JS is also true for the timestamp 0. -/
def checkCooldown (cooldowns : CooldownMap) (userId : String) (now : Int) :
    Bool × Int × CooldownMap :=
  match List.lookup userId cooldowns with
  | none => (false, 0, cooldowns)
  | some lastAttempt =>
    if lastAttempt == 0 then (false, 0, cooldowns)
    else
      let elapsed := now - lastAttempt
      let remaining := COOLDOWN_MS - elapsed
      if remaining ≤ 0 then (false, 0, cooldowns.filter (fun p => p.1 != userId))
      else (true, remaining, cooldowns)

/-- Embedding of `setCooldown(userId)` at time `now` (Map.set overwrites). -/
def setCooldown (cooldowns : CooldownMap) (userId : String) (now : Int) : CooldownMap :=
  (userId, now) :: cooldowns.filter (fun p => p.1 != userId)

/-- The gate segment of `handleScreenshotVerification` /
`handleMapleRanksVerification`: `checkCooldown`, early-return when on
cooldown, otherwise `setCooldown`.  In the source this sequence contains no
`await`, so under the Node.js run-to-completion event loop it executes as
one atomic step; concurrent attempts interleave only around it, never
inside it.  Returns (passedGate, new state). -/
def cooldownGateStep (cooldowns : CooldownMap) (userId : String) (now : Int) :
    Bool × CooldownMap :=
  let r := checkCooldown cooldowns userId now
  if r.1 then (false, r.2.2) else (true, setCooldown r.2.2 userId now)

/-! ## Attachment validation (src/src/verifier.js, validateAttachment) -/

/-- The fields of a Discord attachment that `validateAttachment` reads. -/
structure AttachmentV where
  size : Nat
  contentType : Option String
  url : String

/-- Result shape of `validateAttachment` (reason abstracted to a code). -/
structure ValidationResult where
  valid : Bool
  reason : Option Reason
deriving DecidableEq, Repr

/-- JS truthiness of the optional lowercased contentType. -/
def strTruthy (o : Option String) : Bool := !(strFalsy o)

/-- Embedding of `validateAttachment(attachment)`: size check, then
contentType allow-list check (only when contentType is truthy), then the
extension check `url.includes(ext)` that applies only when contentType is
falsy. -/
def validateAttachment (att : AttachmentV) : ValidationResult :=
  if MAX_FILE_SIZE < att.size then ⟨false, some Reason.FAIL_FILE_TOO_LARGE⟩
  else
    let contentType : Option String := att.contentType.map lowerStr
    if strTruthy contentType && !(ALLOWED_IMAGE_TYPES.contains (contentType.getD "")) then
      ⟨false, some Reason.FAIL_INVALID_IMAGE⟩
    else
      let url := lowerStr att.url
      let hasValidExtension := ALLOWED_EXTENSIONS.any (fun e => containsSubstr url e)
      if !hasValidExtension && !(strTruthy contentType) then
        ⟨false, some Reason.FAIL_INVALID_IMAGE⟩
      else ⟨true, none⟩

/-! ## Text normalization used by the OCR parsers -/

/-- JS `\s` (restricted to the ASCII whitespace relevant to OCR text). -/
def isJsSpace (c : Char) : Bool := c.isWhitespace

/-- `replace(/\s+/g, ' ')`: collapse every whitespace run to one space. -/
def collapseRuns : List Char → List Char
  | [] => []
  | [c] => [if isJsSpace c then ' ' else c]
  | c1 :: c2 :: rest =>
    if isJsSpace c1 && isJsSpace c2 then collapseRuns (c2 :: rest)
    else (if isJsSpace c1 then ' ' else c1) :: collapseRuns (c2 :: rest)

/-- JS `String.prototype.trim`. -/
def trimList (l : List Char) : List Char :=
  ((l.dropWhile isJsSpace).reverse.dropWhile isJsSpace).reverse

/-- ASCII `toLowerCase` on a character list. -/
def lowerList (l : List Char) : List Char := l.map Char.toLower

/-- `text.toLowerCase().replace(/\s+/g, ' ').trim()`, the `normalizedText`
of src/src/ocr.js (its preceding `replace(/[|!1l]/g, m => m)` is the
identity and is omitted) and the `normalized` of the unnamed variant. -/
def normalizeWs (text : String) : List Char :=
  trimList (collapseRuns (lowerList text.data))

/-! ## Embedded regular-expression scanners

Each source regex becomes a dedicated matcher `List Char → Option (value ×
rest)` trying to match at the head of the input; `scanAll` runs it with
JavaScript `exec`+`/g` semantics: leftmost match, then continue right
after the match end.  All embedded matchers consume at least one character
on success, so the fuel `s.length` never runs out early. -/

/-- `parseInt` on a list of decimal digits. -/
def digitsToNat (l : List Char) : Nat := l.foldl (fun a c => 10 * a + (c.toNat - 48)) 0

/-- Exactly `n` digits (`\d{n}`), returning capture and rest. -/
def takeDigits : Nat → List Char → Option (List Char × List Char)
  | 0, s => some ([], s)
  | _ + 1, [] => none
  | n + 1, c :: s =>
    if c.isDigit then (takeDigits n s).map (fun p => (c :: p.1, p.2)) else none

/-- Greedy `\d{2,3}` with no pattern following the capture. -/
def take2or3Digits (s : List Char) : Option (List Char × List Char) :=
  match takeDigits 3 s with
  | some p => some p
  | none => takeDigits 2 s

/-- Greedy `\d+` with no pattern following the capture. -/
def takeDigitsPlus (s : List Char) : Option (Nat × List Char) :=
  match s.takeWhile Char.isDigit with
  | [] => none
  | ds => some (digitsToNat ds, s.drop ds.length)

/-- Literal match: consume `pat` from the head of the input. -/
def dropLit : List Char → List Char → Option (List Char)
  | [], s => some s
  | _ :: _, [] => none
  | p :: ps, c :: cs => if c == p then dropLit ps cs else none

/-- Greedy `\.?` (safe without backtracking: every follower requires a
whitespace-or-digit class that a dot can never satisfy). -/
def dropOptDot : List Char → List Char
  | [] => []
  | c :: r => if c == '.' then r else c :: r

/-- The character class `[:\s]`. -/
def isColonOrSpace (c : Char) : Bool := c == ':' || isJsSpace c

/-- A matcher at a fixed position: parsed value and rest after the match. -/
abbrev Matcher := List Char → Option (Nat × List Char)

/-- Global scan: at each position try the matcher, on success record the
value and continue after the match, otherwise advance one character. -/
def scanAllAux (m : Matcher) : Nat → List Char → List Nat
  | 0, _ => []
  | fuel + 1, s =>
    match s with
    | [] => []
    | _ :: rest =>
      match m s with
      | some (v, r) => v :: scanAllAux m fuel r
      | none => scanAllAux m fuel rest

/-- All matches of `m` in `s`, in JS `exec`/`g` order. -/
def scanAll (m : Matcher) (s : List Char) : List Nat := scanAllAux m s.length s

/-- First match of `m` in `s` (non-global `String.prototype.match`). -/
def scanFirstAux (m : Matcher) : Nat → List Char → Option Nat
  | 0, _ => none
  | fuel + 1, s =>
    match s with
    | [] => none
    | _ :: rest =>
      match m s with
      | some (v, _) => some v
      | none => scanFirstAux m fuel rest

/-- Leftmost match value of `m` in `s`, if any. -/
def scanFirst (m : Matcher) (s : List Char) : Option Nat := scanFirstAux m s.length s

/-! ## src/src/ocr.js parseOCRText: level patterns -/

/-- `/lv\.?\s*(\d{2,3})/gi` -/
def lvDotAt : Matcher := fun s =>
  (dropLit "lv".data s).bind fun r1 =>
  (take2or3Digits ((dropOptDot r1).dropWhile isJsSpace)).map fun p => (digitsToNat p.1, p.2)

/-- `/lv[:\s]*(\d{2,3})/gi` -/
def lvColonAt : Matcher := fun s =>
  (dropLit "lv".data s).bind fun r1 =>
  (take2or3Digits (r1.dropWhile isColonOrSpace)).map fun p => (digitsToNat p.1, p.2)

/-- `/level\s*[:\s]*(\d{2,3})/gi` -/
def levelColonAt : Matcher := fun s =>
  (dropLit "level".data s).bind fun r1 =>
  (take2or3Digits ((r1.dropWhile isJsSpace).dropWhile isColonOrSpace)).map
    fun p => (digitsToNat p.1, p.2)

/-- `/lvl\.?\s*(\d{2,3})/gi` -/
def lvlDotAt : Matcher := fun s =>
  (dropLit "lvl".data s).bind fun r1 =>
  (take2or3Digits ((dropOptDot r1).dropWhile isJsSpace)).map fun p => (digitsToNat p.1, p.2)

/-- `/[il1]v\.?\s*(\d{2,3})/gi` -/
def il1vDotAt : Matcher := fun s =>
  match s with
  | [] => none
  | c :: r0 =>
    if c == 'i' || c == 'l' || c == '1' then
      (dropLit "v".data r0).bind fun r1 =>
      (take2or3Digits ((dropOptDot r1).dropWhile isJsSpace)).map
        fun p => (digitsToNat p.1, p.2)
    else none

/-- `/(\d{3})\s*(?:lv|level)/gi` (alternation tries `lv` first). -/
def d3ThenLvAt : Matcher := fun s =>
  (takeDigits 3 s).bind fun p =>
  let r2 := p.2.dropWhile isJsSpace
  match dropLit "lv".data r2 with
  | some r3 => some (digitsToNat p.1, r3)
  | none => (dropLit "level".data r2).map fun r3 => (digitsToNat p.1, r3)

/-- `/\d{3}/g` -/
def d3At : Matcher := fun s =>
  (takeDigits 3 s).map fun p => (digitsToNat p.1, p.2)

/-- The `\s(\d{3})(?:\s|$)` alternative of `/(?:^|\s)(\d{3})(?:\s|$)/gm`
(on whitespace-collapsed text `^`/`$` only hold at the ends). -/
def standalone3At : Matcher := fun s =>
  match s with
  | [] => none
  | c :: r0 =>
    if isJsSpace c then
      (takeDigits 3 r0).bind fun p =>
      match p.2 with
      | [] => some (digitsToNat p.1, [])
      | c2 :: r2 => if isJsSpace c2 then some (digitsToNat p.1, r2) else none
    else none

/-- The `^`-anchored alternative of the same pattern. -/
def standalone3Start (s : List Char) : Option (Nat × List Char) :=
  (takeDigits 3 s).bind fun p =>
  match p.2 with
  | [] => some (digitsToNat p.1, [])
  | c2 :: r2 => if isJsSpace c2 then some (digitsToNat p.1, r2) else none

/-- All matches of `/(?:^|\s)(\d{3})(?:\s|$)/gm` on collapsed text. -/
def standalone3All (s : List Char) : List Nat :=
  match standalone3Start s with
  | some (v, r) => v :: scanAll standalone3At r
  | none => scanAll standalone3At s

/-- The plausibility filter `level >= 200 && level <= 300`. -/
def inBound (n : Nat) : Bool := 200 ≤ n && n ≤ 300

/-- Candidates of the seven `levelPatterns` of src/src/ocr.js, each filtered
into the 200..300 bound at collection time. -/
def ocrjsLevelPatternCands (nt : List Char) : List Nat :=
  (scanAll lvDotAt nt ++ scanAll lvColonAt nt ++ scanAll levelColonAt nt ++
   scanAll lvlDotAt nt ++ scanAll il1vDotAt nt ++ scanAll d3ThenLvAt nt ++
   standalone3All nt).filter inBound

/-- The `allNumbers` sweep `/\d{3}/g` of src/src/ocr.js, bound-filtered. -/
def ocrjsAllNumberCands (nt : List Char) : List Nat :=
  (scanAll d3At nt).filter inBound

/-- All level candidates collected by src/src/ocr.js parseOCRText. -/
def ocrjsLevelCands (text : String) : List Nat :=
  let nt := normalizeWs text
  ocrjsLevelPatternCands nt ++ ocrjsAllNumberCands nt

/-! ## src/src/ocr.js parseOCRText: class patterns (word-boundary regexes) -/

/-- JS `\w` for the `\b` boundary test. -/
def isWordChar (c : Char) : Bool := c.isAlpha || c.isDigit || c == '_'

/-- Boundary test on the character before a match position (`\b` holds at
the start of the text or after a non-word character). -/
def prevOk : Option Char → Bool
  | none => true
  | some c => !(isWordChar c)

/-- Boundary test on the text following a match (`\b` holds at the end of
the text or before a non-word character). -/
def afterOk : List Char → Bool
  | [] => true
  | c :: _ => !(isWordChar c)

/-- Does word `w` match at the head of `s`, with `prev` the character just
before this position, under `\b...\b` boundary conditions? -/
def wordAt (prev : Option Char) (s w : List Char) : Bool :=
  listIsPrefixOf w s && prevOk prev && afterOk (s.drop w.length)

/-- Scan for a `\b w \b` occurrence anywhere in the input. -/
def containsWordAux (w : List Char) : Option Char → List Char → Bool
  | prev, [] => wordAt prev [] w
  | prev, c :: rest => wordAt prev (c :: rest) w || containsWordAux w (some c) rest

/-- `new RegExp("\\b" + w + "\\b").test(s)` for a word `w` of word chars. -/
def containsWordL (s w : List Char) : Bool := containsWordAux w none s

/-- The six `classPatterns` of src/src/ocr.js as whole words
(`\bkain\b`, `\bkam\b`, `\bkaln\b`, `\bkaim\b`, `\bkajn\b`, and the
expansion of `\bka[il1]n\b`). -/
def ocrjsClassWords : List String :=
  ["kain", "kam", "kaln", "kaim", "kajn", "kain", "kaln", "ka1n"]

/-- Result shape of both parseOCRText variants (`class` is a reserved word
in Lean, embedded as `cls`). -/
structure OCRParsed where
  cls : Option String
  level : Option Nat
  rawText : String
deriving DecidableEq, Repr

/-- `Math.max(...)` over a list of naturals (every collected candidate is
at least 200, so the 0 seed never wins on a nonempty list). -/
def maxOfList (l : List Nat) : Nat := l.foldl max 0

/-- Embedding of src/src/ocr.js `parseOCRText(text)`. -/
def ocrjs_parseOCRText (text : String) : OCRParsed :=
  ⟨if ocrjsClassWords.any (fun w => containsWordL (normalizeWs text) w.data)
     then some "kain" else none,
   if (ocrjsLevelCands text).isEmpty then none
     else some (maxOfList (ocrjsLevelCands text)),
   text⟩

/-! ## src/unnamed/part_000 parseOCRText (the second OCR parser variant) -/

/-- The `[^a-z0-9\s] → ' '` projection used for `lettersAndNumbers`
(applied after `toLowerCase`). -/
def keepAlnumSpace (c : Char) : Char :=
  if ('a' ≤ c && c ≤ 'z') || c.isDigit || isJsSpace c then c else ' '

/-- The `allText` of the unnamed parseOCRText:
`normalized + ' ' + noSpaces + ' ' + lettersAndNumbers` where
`normalized = lower.replace(/\s+/g,' ').trim()`,
`noSpaces = lower.replace(/\s+/g,'')`, and
`lettersAndNumbers = lower.replace(/[^a-z0-9\s]/g,' ').replace(/\s+/g,' ')`. -/
def part000AllText (text : String) : List Char :=
  let lower := lowerList text.data
  let normalized := trimList (collapseRuns lower)
  let noSpaces := lower.filter (fun c => !(isJsSpace c))
  let lettersAndNumbers := collapseRuns (lower.map keepAlnumSpace)
  normalized ++ ' ' :: (noSpaces ++ ' ' :: lettersAndNumbers)

/-- The four `classPatterns` of the unnamed parseOCRText, expanded to the
substrings they test for (`/kain/`, `/ka[il1!|]n/`, `/kam/`, `/kaln/` —
no word boundaries: plain substring tests). -/
def part000ClassSubs : List String :=
  ["kain", "kain", "kaln", "ka1n", "ka!n", "ka|n", "kam", "kaln"]

/-- `/lv[^0-9]*(\d{3})/gi` -/
def lvAnyD3At : Matcher := fun s =>
  (dropLit "lv".data s).bind fun r1 =>
  (takeDigits 3 (r1.dropWhile (fun c => !c.isDigit))).map fun p => (digitsToNat p.1, p.2)

/-- `/lv[^0-9]*(\d{2})/gi` -/
def lvAnyD2At : Matcher := fun s =>
  (dropLit "lv".data s).bind fun r1 =>
  (takeDigits 2 (r1.dropWhile (fun c => !c.isDigit))).map fun p => (digitsToNat p.1, p.2)

/-- `/level[^0-9]*(\d{2,3})/gi` -/
def levelAnyD23At : Matcher := fun s =>
  (dropLit "level".data s).bind fun r1 =>
  (take2or3Digits (r1.dropWhile (fun c => !c.isDigit))).map fun p => (digitsToNat p.1, p.2)

/-- The per-match body of the `lvPatterns` loop: a 2-digit reading in
40..99 is promoted by prefixing the missing leading 2, then the 200..300
bound is enforced. -/
def promoteBound (v : Nat) : Option Nat :=
  let v2 := if 40 ≤ v && v ≤ 99 then 200 + v else v
  if 200 ≤ v2 && v2 ≤ 300 then some v2 else none

/-- Candidates from the three `lvPatterns`, run over `allText`. -/
def part000LvCands (allText : List Char) : List Nat :=
  (scanAll lvAnyD3At allText ++ scanAll lvAnyD2At allText ++
    scanAll levelAnyD23At allText).filterMap promoteBound

/-- `/2\s*6\s*(\d)/g`, value `parseInt('26' + digit)` — the narrow
digit-reconstruction heuristic, run over the raw text. -/
def twoSixAt : Matcher := fun s =>
  match s with
  | [] => none
  | c :: r0 =>
    if c == '2' then
      match r0.dropWhile isJsSpace with
      | c6 :: r1 =>
        if c6 == '6' then
          match r1.dropWhile isJsSpace with
          | d :: r2 => if d.isDigit then some (digitsToNat ['2', '6', d], r2) else none
          | [] => none
        else none
      | [] => none
    else none

/-- Digit-reconstruction candidates with the source's 260..269 check. -/
def part000TwoSixCands (raw : List Char) : List Nat :=
  (scanAll twoSixAt raw).filter (fun v => 260 ≤ v && v ≤ 269)

/-- The `/\d{3}/g` sweep of the unnamed parser, run over the raw text,
bound-filtered. -/
def part000ThreeDigitCands (raw : List Char) : List Nat :=
  (scanAll d3At raw).filter inBound

/-- All level candidates collected by the unnamed parseOCRText, in
collection order: indicator patterns, 3-digit sweep, digit reconstruction. -/
def part000LevelCands (text : String) : List Nat :=
  part000LvCands (part000AllText text) ++ part000ThreeDigitCands text.data ++
    part000TwoSixCands text.data

/-- Embedding of the unnamed variant `parseOCRText(text)`. -/
def part000_parseOCRText (text : String) : OCRParsed :=
  ⟨if part000ClassSubs.any (fun w => listContainsSub w.data (part000AllText text))
     then some "kain" else none,
   if (part000LevelCands text).isEmpty then none
     else some (maxOfList (part000LevelCands text)),
   text⟩

/-- The class field of the ocr.js parser, expressed over its word list. -/
theorem ocrjs_cls_eq (text : String) :
    (ocrjs_parseOCRText text).cls =
      if ocrjsClassWords.any (fun w => containsWordL (normalizeWs text) w.data)
      then some "kain" else none := rfl

/-- The class field of the unnamed parser, expressed over its substring list. -/
theorem part000_cls_eq (text : String) :
    (part000_parseOCRText text).cls =
      if part000ClassSubs.any (fun w => listContainsSub w.data (part000AllText text))
      then some "kain" else none := rfl

/-! ## Recognition aggregation (C6)

Each per-variant recognition outcome is `none` when `worker.recognize`
threw (the source catches and skips it) and `some (text, confidence)` when
it returned.  Confidences are compared, never computed with, so they are
embedded as naturals. -/

/-- Aggregation of src/src/ocr.js `extractText`: texts of the surviving
results joined by newline, `Math.max(...confidences, 0)`. -/
def extractTextAggregate (outcomes : List (Option (String × Nat))) : String × Nat :=
  let results := outcomes.filterMap id
  (String.intercalate "\n" (results.map Prod.fst), (results.map Prod.snd).foldl max 0)

/-- Aggregation of the unnamed `tesseractOCR`: explicit empty-result check
returning `('', 0)`, otherwise join and `Math.max(...confidences)`. -/
def tesseractOCRAggregate (outcomes : List (Option (String × Nat))) : String × Nat :=
  let results := outcomes.filterMap id
  if results.isEmpty then ("", 0)
  else (String.intercalate "\n" (results.map Prod.fst), (results.map Prod.snd).foldl max 0)

/-! ## Secondary evidence parser (src/src/verifier.js, parseMapleRanksEmbed) -/

/-- A Discord embed field as read by the parser. -/
structure EmbedField where
  name : Option String
  value : Option String

/-- The parts of a Discord embed the parser reads (`fields` is `none`
when absent or not an array). -/
structure DiscordEmbed where
  fields : Option (List EmbedField)
  description : Option String
  title : Option String

/-- Result shape of parseMapleRanksEmbed. -/
structure MRParsed where
  cls : Option String
  level : Option Nat
  name : Option String
deriving DecidableEq, Repr

/-- First `/(\d+)/` capture in a character list. -/
def firstDigitRun (l : List Char) : Option (List Char) :=
  match (l.dropWhile (fun c => !c.isDigit)).takeWhile Char.isDigit with
  | [] => none
  | ds => some ds

/-- One iteration of the `for (const field of embed.fields)` loop. -/
def mrFieldStep (acc : MRParsed) (f : EmbedField) : MRParsed :=
  let fieldName := lowerList (f.name.getD "").data
  let fieldValue := lowerList (f.value.getD "").data
  let acc1 :=
    if listContainsSub "job".data fieldName || listContainsSub "class".data fieldName then
      if listContainsSub "kain".data fieldValue then { acc with cls := some "kain" } else acc
    else acc
  let acc2 :=
    if listContainsSub "level".data fieldName || listContainsSub "lv".data fieldName then
      match firstDigitRun fieldValue with
      | some ds => { acc1 with level := some (digitsToNat ds) }
      | none => acc1
    else acc1
  if listContainsSub "name".data fieldName || listContainsSub "ign".data fieldName then
    { acc2 with name := f.value }
  else acc2

/-- `/level[:\s]*(\d+)/i` -/
def mrLevelPat1At : Matcher := fun s =>
  (dropLit "level".data s).bind fun r1 =>
  takeDigitsPlus (r1.dropWhile isColonOrSpace)

/-- `/lv\.?\s*(\d+)/i` -/
def mrLevelPat2At : Matcher := fun s =>
  (dropLit "lv".data s).bind fun r1 =>
  takeDigitsPlus ((dropOptDot r1).dropWhile isJsSpace)

/-- Embedding of `parseMapleRanksEmbed(embed)`: the field loop, then the
description/title fallbacks.  The level fallback runs when `result.level`
is JS-falsy, i.e. absent or 0; it tries the `level` pattern first and the
`lv` pattern only when the first has no match anywhere. -/
def parseMapleRanksEmbed (embed : DiscordEmbed) : MRParsed :=
  let r1 := match embed.fields with
    | some fs => fs.foldl mrFieldStep ⟨none, none, none⟩
    | none => (⟨none, none, none⟩ : MRParsed)
  let textContent := lowerList ((embed.description.getD "") ++ " " ++ (embed.title.getD "")).data
  let r2 := if strFalsy r1.cls && listContainsSub "kain".data textContent then
      { r1 with cls := some "kain" } else r1
  let levelFalsy := match r2.level with | none => true | some v => v == 0
  if levelFalsy then
    match scanFirst mrLevelPat1At textContent with
    | some v => { r2 with level := some v }
    | none =>
      match scanFirst mrLevelPat2At textContent with
      | some v => { r2 with level := some v }
      | none => r2
  else r2

/-! ## Specification-side predicates for tag matching (used by C4)

These are stated structurally (as existential decompositions of the text),
independently of the Boolean scanners that embed the source's regexes, so
that the C4 equivalence theorem relates mechanism to meaning. -/

/-- `w` occurs in `s` as a whole word: some occurrence of `w` is preceded
by nothing or a non-word character, and followed by nothing or a non-word
character (the meaning of the `\b w \b` regexes of src/src/ocr.js). -/
def WordOccurs (s w : List Char) : Prop :=
  ∃ a b, s = a ++ w ++ b ∧
    (a = [] ∨ ∃ a' c, a = a' ++ [c] ∧ isWordChar c = false) ∧
    (b = [] ∨ ∃ c b', b = c :: b' ∧ isWordChar c = false)

/-- `w` occurs in `s` as a plain substring (the meaning of the
boundary-free patterns of the unnamed parser). -/
def SubOccurs (s w : List Char) : Prop :=
  ∃ a b, s = a ++ w ++ b

/-- The prefix condition of one scan position, generalized over the
character preceding the position (`none` at the very start). -/
def PrevCond (prev : Option Char) (a : List Char) : Prop :=
  (a = [] ∧ prevOk prev = true) ∨ (∃ a' c, a = a' ++ [c] ∧ isWordChar c = false)

/-! ## Helper lemmas about Math.max over candidate lists -/

theorem le_foldl_max (l : List Nat) : ∀ a : Nat, a ≤ l.foldl max a := by
  induction l with
  | nil => intro a; exact le_rfl
  | cons h t ih => intro a; exact le_trans (le_max_left a h) (ih (max a h))

theorem foldl_max_le (l : List Nat) : ∀ (a x : Nat), x ∈ l → x ≤ l.foldl max a := by
  induction l with
  | nil => intro a x hx; cases hx
  | cons h t ih =>
    intro a x hx
    cases hx with
    | head => exact le_trans (le_max_right a h) (le_foldl_max t (max a h))
    | tail _ hx => exact ih _ x hx

theorem foldl_max_mem (l : List Nat) : ∀ a : Nat, l.foldl max a = a ∨ l.foldl max a ∈ l := by
  induction l with
  | nil => intro a; exact Or.inl rfl
  | cons h t ih =>
    intro a
    rcases ih (max a h) with heq | hmem
    · rw [List.foldl_cons, heq]
      rcases max_choice a h with h1 | h1
      · exact Or.inl h1
      · exact Or.inr (by rw [h1]; exact List.mem_cons_self h t)
    · exact Or.inr (List.mem_cons_of_mem h hmem)

theorem maxOfList_spec (l : List Nat) (hne : l ≠ []) :
    maxOfList l ∈ l ∧ ∀ x ∈ l, x ≤ maxOfList l := by
  refine ⟨?_, fun x hx => foldl_max_le l 0 x hx⟩
  rcases foldl_max_mem l 0 with h0 | hm
  · cases l with
    | nil => exact absurd rfl hne
    | cons h t =>
      have hh : h ≤ maxOfList (h :: t) := foldl_max_le _ 0 h (List.mem_cons_self _ _)
      have h0' : maxOfList (h :: t) = 0 := h0
      rw [h0'] at hh ⊢
      have hz : h = 0 := Nat.le_zero.mp hh
      rw [← hz]
      exact List.mem_cons_self _ _
  · exact hm

/-! ## Helper lemmas: every collected candidate is inside 200..300 -/

theorem inBound_mem {l : List Nat} {x : Nat} (hx : x ∈ l.filter inBound) :
    200 ≤ x ∧ x ≤ 300 := by
  have h := (List.mem_filter.mp hx).2
  simpa [inBound] using h

theorem promoteBound_bound {v x : Nat} (h : promoteBound v = some x) :
    200 ≤ x ∧ x ≤ 300 := by
  simp only [promoteBound] at h
  split at h
  · split at h
    · rename_i hc
      injection h with h'
      subst h'
      simpa using hc
    · exact absurd h (by simp)
  · split at h
    · rename_i hc
      injection h with h'
      subst h'
      simpa using hc
    · exact absurd h (by simp)

theorem ocrjsLevelCands_bound (text : String) :
    ∀ x ∈ ocrjsLevelCands text, 200 ≤ x ∧ x ≤ 300 := by
  intro x hx
  simp only [ocrjsLevelCands, ocrjsLevelPatternCands, ocrjsAllNumberCands] at hx
  rcases List.mem_append.mp hx with h | h <;> exact inBound_mem h

theorem part000LevelCands_bound (text : String) :
    ∀ x ∈ part000LevelCands text, 200 ≤ x ∧ x ≤ 300 := by
  intro x hx
  simp only [part000LevelCands, part000LvCands, part000ThreeDigitCands,
    part000TwoSixCands] at hx
  rcases List.mem_append.mp hx with h | h
  · rcases List.mem_append.mp h with h1 | h1
    · obtain ⟨v, _, hpb⟩ := List.mem_filterMap.mp h1
      exact promoteBound_bound hpb
    · exact inBound_mem h1
  · have h2 := (List.mem_filter.mp h).2
    simp only [Bool.and_eq_true, decide_eq_true_eq] at h2
    omega

/-- The level field of the ocr.js parser, expressed over its candidate list. -/
theorem ocrjs_level_eq (text : String) :
    (ocrjs_parseOCRText text).level =
      if (ocrjsLevelCands text).isEmpty then none
      else some (maxOfList (ocrjsLevelCands text)) := by
  dsimp only [ocrjs_parseOCRText]

/-- The level field of the unnamed parser, expressed over its candidate list. -/
theorem part000_level_eq (text : String) :
    (part000_parseOCRText text).level =
      if (part000LevelCands text).isEmpty then none
      else some (maxOfList (part000LevelCands text)) := by
  dsimp only [part000_parseOCRText]

/-! ## Theorems for C1, C2, C8, C9 -/

theorem lowerStr_required : lowerStr REQUIRED_CLASS = "kain" := by decide

/-- C1: the decision function evaluates its rules in the fixed order
tag-absent, wrong-tag, level-absent, level-below-threshold; the first
matching rule alone determines the reason.  In particular a present tag
that differs case-insensitively from "kain" yields `FAIL_WRONG_CLASS` for
every level input, including an absent level. -/
theorem C1_decision_precedence (t : String) (l : Option Int) (v : Int) :
    ((checkRequirements none l).reason = Reason.FAIL_NO_CLASS)
    ∧ (t ≠ "" → lowerStr t ≠ "kain" →
        (checkRequirements (some t) l).reason = Reason.FAIL_WRONG_CLASS)
    ∧ (t ≠ "" → lowerStr t = "kain" →
        (checkRequirements (some t) none).reason = Reason.FAIL_NO_LEVEL)
    ∧ (t ≠ "" → lowerStr t = "kain" → v < REQUIRED_LEVEL →
        (checkRequirements (some t) (some v)).reason = Reason.FAIL_LOW_LEVEL v)
    ∧ (t ≠ "" → lowerStr t = "kain" → REQUIRED_LEVEL ≤ v →
        (checkRequirements (some t) (some v)).reason = Reason.SUCCESS) := by
  refine ⟨by simp [checkRequirements, strFalsy], ?_, ?_, ?_, ?_⟩
  · intro ht hw
    simp [checkRequirements, strFalsy, ht, lowerStr_required, hw]
  · intro ht hk
    simp [checkRequirements, strFalsy, ht, lowerStr_required, hk]
  · intro ht hk hv
    simp [checkRequirements, strFalsy, ht, lowerStr_required, hk, hv]
  · intro ht hk hv
    simp [checkRequirements, strFalsy, ht, lowerStr_required, hk, not_lt.mpr hv]

/-- Witness for C1: a candidate with wrong tag AND missing level reports
the wrong-tag reason, not the missing-level reason. -/
theorem C1_decision_precedence_witness :
    (checkRequirements (some "warrior") none).reason = Reason.FAIL_WRONG_CLASS :=
  (C1_decision_precedence "warrior" none 0).2.1 (by decide) (by decide)

/-- C2: `success = true` iff the reason is the success reason, and on
failure the reason is one of the four failure codes. -/
theorem C2_success_iff_ok (t : Option String) (l : Option Int) :
    ((checkRequirements t l).success = true ↔
      (checkRequirements t l).reason = Reason.SUCCESS)
    ∧ ((checkRequirements t l).success = false →
        (checkRequirements t l).reason = Reason.FAIL_NO_CLASS ∨
        (checkRequirements t l).reason = Reason.FAIL_WRONG_CLASS ∨
        (checkRequirements t l).reason = Reason.FAIL_NO_LEVEL ∨
        ∃ d, (checkRequirements t l).reason = Reason.FAIL_LOW_LEVEL d) := by
  unfold checkRequirements
  split
  · simp
  · split
    · simp
    · cases l with
      | none => simp
      | some v =>
        simp only
        split <;> simp

/-- Witness for C2, instantiated at tag "kain" and level 100 (a failing
input, whose reason is the low-level code carrying the detected level). -/
theorem C2_success_iff_ok_witness :
    (checkRequirements (some "kain") (some 100)).reason = Reason.FAIL_NO_CLASS ∨
    (checkRequirements (some "kain") (some 100)).reason = Reason.FAIL_WRONG_CLASS ∨
    (checkRequirements (some "kain") (some 100)).reason = Reason.FAIL_NO_LEVEL ∨
    ∃ d, (checkRequirements (some "kain") (some 100)).reason = Reason.FAIL_LOW_LEVEL d :=
  (C2_success_iff_ok (some "kain") (some 100)).2 (by decide)

/-- C8: two attempts by the same actor, the second within the cooldown
window of the first, with the actor not in the cooldown map beforehand:
the first passes the gate, the second is rejected — the check-then-set
segment runs atomically (no `await` separates them in the handler), so the
two gate executions serialize. -/
theorem C8_cooldown_mutual_exclusion (m : CooldownMap) (u : String) (t1 t2 : Int)
    (h0 : 0 < t1) (h1 : t1 ≤ t2) (h2 : t2 < t1 + COOLDOWN_MS)
    (hfresh : List.lookup u m = none) :
    (cooldownGateStep m u t1).1 = true ∧
    (cooldownGateStep (cooldownGateStep m u t1).2 u t2).1 = false := by
  have hstep1 : cooldownGateStep m u t1 = (true, setCooldown m u t1) := by
    simp [cooldownGateStep, checkCooldown, hfresh]
  refine ⟨by rw [hstep1], ?_⟩
  rw [hstep1]
  have hlk : List.lookup u (setCooldown m u t1) = some t1 := by
    simp [setCooldown, List.lookup]
  have ht1 : (t1 == 0) = false := by
    simp only [beq_eq_false_iff_ne, ne_eq]
    omega
  have hrem : ¬ (COOLDOWN_MS - (t2 - t1) ≤ 0) := by omega
  simp [cooldownGateStep, checkCooldown, hlk, ht1, hrem]

/-- Witness for C8 at the empty map, actor "u", times 1 and 2. -/
theorem C8_cooldown_mutual_exclusion_witness :
    (cooldownGateStep [] "u" 1).1 = true ∧
    (cooldownGateStep (cooldownGateStep [] "u" 1).2 "u" 2).1 = false :=
  C8_cooldown_mutual_exclusion [] "u" 1 2 (by decide) (by decide)
    (by decide) rfl

/-- C9: a size-compliant attachment with a present, allowed contentType is
valid regardless of the URL; with contentType absent, validity is exactly
"the lowercased URL contains some allowed extension as a substring". -/
theorem C9_attachment_validation (size : Nat) (ct : String) (url : String) :
    (size ≤ MAX_FILE_SIZE → lowerStr ct ∈ ALLOWED_IMAGE_TYPES →
      (validateAttachment ⟨size, some ct, url⟩).valid = true)
    ∧ (size ≤ MAX_FILE_SIZE →
      ((validateAttachment ⟨size, none, url⟩).valid = true ↔
        ∃ e ∈ ALLOWED_EXTENSIONS, containsSubstr (lowerStr url) e = true)) := by
  constructor
  · intro hsize hmem
    have hne : lowerStr ct ≠ "" := by
      intro h
      rw [h] at hmem
      simp [ALLOWED_IMAGE_TYPES] at hmem
    simp [validateAttachment, not_lt.mpr hsize, strTruthy, strFalsy, hne, hmem]
  · intro hsize
    have hgate : ¬ MAX_FILE_SIZE < size := not_lt.mpr hsize
    have hval : (validateAttachment ⟨size, none, url⟩).valid
        = ALLOWED_EXTENSIONS.any (fun e => containsSubstr (lowerStr url) e) := by
      cases hb : ALLOWED_EXTENSIONS.any (fun e => containsSubstr (lowerStr url) e) <;>
        simp [validateAttachment, if_neg hgate, strTruthy, strFalsy, hb]
    rw [hval, List.any_eq_true]

/-- Witness for C9: a small PNG attachment with extension-free URL is
valid, and with contentType absent the URL ".png inside" suffices. -/
theorem C9_attachment_validation_witness :
    (validateAttachment ⟨0, some "image/png", "x"⟩).valid = true ∧
    ((validateAttachment ⟨0, none, "a.png.txt"⟩).valid = true ↔
      ∃ e ∈ ALLOWED_EXTENSIONS, containsSubstr (lowerStr "a.png.txt") e = true) :=
  ⟨(C9_attachment_validation 0 "image/png" "x").1 (by decide) (by decide),
   (C9_attachment_validation 0 "image/png" "a.png.txt").2 (by decide)⟩

/-! ## Correctness of the substring and word-boundary scanners (for C4) -/

theorem listIsPrefixOf_iff : ∀ (p s : List Char), listIsPrefixOf p s = true ↔ ∃ t, s = p ++ t
  | [], s => ⟨fun _ => ⟨s, rfl⟩, fun _ => rfl⟩
  | a :: as, [] => by
    constructor
    · intro h
      exact absurd h (by simp [listIsPrefixOf])
    · rintro ⟨t, ht⟩
      exact absurd ht (by simp)
  | a :: as, b :: bs => by
    simp only [listIsPrefixOf, Bool.and_eq_true, beq_iff_eq]
    rw [listIsPrefixOf_iff as bs]
    constructor
    · rintro ⟨rfl, t, rfl⟩
      exact ⟨t, rfl⟩
    · rintro ⟨t, ht⟩
      injection ht with h1 h2
      exact ⟨h1.symm, t, h2⟩

theorem listContainsSub_iff (n : List Char) :
    ∀ s, listContainsSub n s = true ↔ SubOccurs s n
  | [] => by
    rw [listContainsSub, listIsPrefixOf_iff]
    constructor
    · rintro ⟨t, ht⟩
      exact ⟨[], t, ht⟩
    · rintro ⟨a, b, hab⟩
      have h1 := List.append_eq_nil.mp hab.symm
      have h2 := List.append_eq_nil.mp h1.1
      exact ⟨[], by simp [h2.2]⟩
  | c :: s => by
    rw [listContainsSub]
    simp only [Bool.or_eq_true]
    rw [listIsPrefixOf_iff, listContainsSub_iff n s]
    constructor
    · rintro (⟨t, ht⟩ | ⟨a, b, hab⟩)
      · exact ⟨[], t, by simpa using ht⟩
      · exact ⟨c :: a, b, by simp [hab]⟩
    · rintro ⟨a, b, hab⟩
      cases a with
      | nil => exact Or.inl ⟨b, by simpa using hab⟩
      | cons c0 a0 =>
        simp only [List.cons_append] at hab
        injection hab with h1 h2
        exact Or.inr ⟨a0, b, h2⟩

theorem wordAt_iff (prev : Option Char) (s w : List Char) :
    wordAt prev s w = true ↔
      ∃ b, s = w ++ b ∧ prevOk prev = true ∧
        (b = [] ∨ ∃ c b', b = c :: b' ∧ isWordChar c = false) := by
  unfold wordAt
  simp only [Bool.and_eq_true]
  constructor
  · rintro ⟨⟨hpre, hprev⟩, hafter⟩
    obtain ⟨b, rfl⟩ := (listIsPrefixOf_iff w s).mp hpre
    refine ⟨b, rfl, hprev, ?_⟩
    rw [List.drop_left] at hafter
    cases b with
    | nil => exact Or.inl rfl
    | cons cb b' =>
      refine Or.inr ⟨cb, b', rfl, ?_⟩
      simpa [afterOk] using hafter
  · rintro ⟨b, rfl, hprev, hb⟩
    refine ⟨⟨(listIsPrefixOf_iff w (w ++ b)).mpr ⟨b, rfl⟩, hprev⟩, ?_⟩
    rw [List.drop_left]
    rcases hb with rfl | ⟨cb, b', rfl, hc⟩
    · rfl
    · simpa [afterOk] using hc

theorem containsWordAux_iff (w : List Char) (hw : w ≠ []) :
    ∀ (s : List Char) (prev : Option Char),
      containsWordAux w prev s = true ↔
        ∃ a b, s = a ++ w ++ b ∧ PrevCond prev a ∧
          (b = [] ∨ ∃ c b', b = c :: b' ∧ isWordChar c = false) := by
  intro s
  induction s with
  | nil =>
    intro prev
    rw [containsWordAux, wordAt_iff]
    constructor
    · rintro ⟨b, hb, _⟩
      exact absurd (List.append_eq_nil.mp hb.symm).1 hw
    · rintro ⟨a, b, hab, _, _⟩
      have h1 := List.append_eq_nil.mp hab.symm
      exact absurd (List.append_eq_nil.mp h1.1).2 hw
  | cons c rest ih =>
    intro prev
    rw [containsWordAux]
    simp only [Bool.or_eq_true]
    rw [wordAt_iff, ih (some c)]
    constructor
    · rintro (⟨b, hab, hprev, hb⟩ | ⟨a, b, hab, hpc, hb⟩)
      · exact ⟨[], b, by simpa using hab, Or.inl ⟨rfl, hprev⟩, hb⟩
      · refine ⟨c :: a, b, ?_, ?_, hb⟩
        · simp only [List.cons_append]
          rw [← hab]
        · rcases hpc with ⟨rfl, hok⟩ | ⟨a', c', rfl, hc'⟩
          · exact Or.inr ⟨[], c, rfl, by simpa [prevOk] using hok⟩
          · exact Or.inr ⟨c :: a', c', by simp, hc'⟩
    · rintro ⟨a, b, hab, hpc, hb⟩
      cases a with
      | nil =>
        refine Or.inl ⟨b, by simpa using hab, ?_, hb⟩
        rcases hpc with ⟨_, hok⟩ | ⟨a', c', ha', _⟩
        · exact hok
        · exact absurd ha' (by simp)
      | cons c0 a0 =>
        simp only [List.cons_append] at hab
        injection hab with h1 h2
        subst h1
        refine Or.inr ⟨a0, b, h2, ?_, hb⟩
        rcases hpc with ⟨habs, _⟩ | ⟨a', c', ha', hc'⟩
        · exact absurd habs (by simp)
        · cases a' with
          | nil =>
            simp only [List.nil_append] at ha'
            injection ha' with hb1 hb2
            subst hb1
            subst hb2
            exact Or.inl ⟨rfl, by simp [prevOk, hc']⟩
          | cons c1 a1 =>
            simp only [List.cons_append] at ha'
            injection ha' with hb1 hb2
            exact Or.inr ⟨a1, c', hb2, hc'⟩

/-! ## Theorems for C3, C7 (level bound and absent level) -/

/-- C3 (amended): both OCR text parsers never return a level outside
200..300 — the extracted level is either absent or a plausible value.
(The secondary MapleRanks parser imposes no such bound; see the
counterexample.) -/
theorem C3_ocr_level_bound (text : String) :
    ((ocrjs_parseOCRText text).level = none ∨
      ∃ v, (ocrjs_parseOCRText text).level = some v ∧ 200 ≤ v ∧ v ≤ 300)
    ∧ ((part000_parseOCRText text).level = none ∨
      ∃ v, (part000_parseOCRText text).level = some v ∧ 200 ≤ v ∧ v ≤ 300) := by
  constructor
  · rw [ocrjs_level_eq]
    cases hie : (ocrjsLevelCands text).isEmpty with
    | true => exact Or.inl (by simp)
    | false =>
      have hne : ocrjsLevelCands text ≠ [] := by
        simpa [List.isEmpty_iff] using hie
      refine Or.inr ⟨maxOfList (ocrjsLevelCands text), by simp, ?_⟩
      exact ocrjsLevelCands_bound text _ (maxOfList_spec _ hne).1
  · rw [part000_level_eq]
    cases hie : (part000LevelCands text).isEmpty with
    | true => exact Or.inl (by simp)
    | false =>
      have hne : part000LevelCands text ≠ [] := by
        simpa [List.isEmpty_iff] using hie
      refine Or.inr ⟨maxOfList (part000LevelCands text), by simp, ?_⟩
      exact part000LevelCands_bound text _ (maxOfList_spec _ hne).1

/-- Counterexample to C3 as stated: the secondary (MapleRanks) evidence
parser returns level 5 for an embed whose `Level` field reads "5" — an
integer far outside the plausible 200..300 range surfaces as the candidate
level. -/
theorem C3_counterexample :
    (parseMapleRanksEmbed ⟨some [⟨some "level", some "5"⟩], none, none⟩).level = some 5 ∧
    ¬ (200 ≤ 5 ∧ 5 ≤ 300) := by
  constructor
  · rfl
  · decide

/-- C7: when no integer survives the plausibility filter (the candidate
list is empty), both OCR parsers leave the level absent; and a returned
level is never zero or negative (it is always at least 200). -/
theorem C7_no_candidate_level_absent (text : String) :
    (ocrjsLevelCands text = [] → (ocrjs_parseOCRText text).level = none)
    ∧ (∀ v, (ocrjs_parseOCRText text).level = some v → 200 ≤ v)
    ∧ (part000LevelCands text = [] → (part000_parseOCRText text).level = none)
    ∧ (∀ v, (part000_parseOCRText text).level = some v → 200 ≤ v) := by
  refine ⟨?_, ?_, ?_, ?_⟩
  · intro h
    rw [ocrjs_level_eq, h]
    rfl
  · intro v hv
    rcases (C3_ocr_level_bound text).1 with h | ⟨v', hv', hb, _⟩
    · rw [h] at hv; cases hv
    · rw [hv'] at hv
      injection hv with h'
      omega
  · intro h
    rw [part000_level_eq, h]
    rfl
  · intro v hv
    rcases (C3_ocr_level_bound text).2 with h | ⟨v', hv', hb, _⟩
    · rw [h] at hv; cases hv
    · rw [hv'] at hv
      injection hv with h'
      omega

/-- Witness for C7 at the empty text: no candidate survives and the level
is absent in both parsers. -/
theorem C7_no_candidate_level_absent_witness :
    (ocrjs_parseOCRText "").level = none ∧ (part000_parseOCRText "").level = none :=
  ⟨(C7_no_candidate_level_absent "").1 (by decide),
   (C7_no_candidate_level_absent "").2.2.1 (by decide)⟩

/-! ## Theorems for C5, C10 (maximum-of-candidates and 2-digit promotion) -/

/-- C5: whenever some heuristic yields an in-bound candidate, the returned
level is the maximum over all candidates collected across all heuristics
(indicator patterns, standalone 3-digit numbers, and — in the unnamed
variant — the digit-reconstruction heuristic). -/
theorem C5_level_is_max_of_candidates (text : String) :
    (part000LevelCands text ≠ [] →
      ∃ m, (part000_parseOCRText text).level = some m ∧
        m ∈ part000LevelCands text ∧ ∀ x ∈ part000LevelCands text, x ≤ m)
    ∧ (ocrjsLevelCands text ≠ [] →
      ∃ m, (ocrjs_parseOCRText text).level = some m ∧
        m ∈ ocrjsLevelCands text ∧ ∀ x ∈ ocrjsLevelCands text, x ≤ m) := by
  constructor
  · intro hne
    have hie : (part000LevelCands text).isEmpty = false := by
      simpa [List.isEmpty_iff] using hne
    refine ⟨maxOfList (part000LevelCands text), ?_, (maxOfList_spec _ hne).1,
      (maxOfList_spec _ hne).2⟩
    rw [part000_level_eq, hie]
    rfl
  · intro hne
    have hie : (ocrjsLevelCands text).isEmpty = false := by
      simpa [List.isEmpty_iff] using hne
    refine ⟨maxOfList (ocrjsLevelCands text), ?_, (maxOfList_spec _ hne).1,
      (maxOfList_spec _ hne).2⟩
    rw [ocrjs_level_eq, hie]
    rfl

/-- Witness for C5: on "lv 45" the unnamed parser has candidates and
returns their maximum. -/
theorem C5_level_is_max_of_candidates_witness :
    ∃ m, (part000_parseOCRText "lv 45").level = some m ∧
      m ∈ part000LevelCands "lv 45" ∧ ∀ x ∈ part000LevelCands "lv 45", x ≤ m :=
  (C5_level_is_max_of_candidates "lv 45").1 (by decide)

/-- C10: every indicator-prefixed two-digit reading n with 40 ≤ n ≤ 99 is
promoted to 200 + n and recorded as a candidate; in particular "lv 45"
(and no other digits) yields the extracted level 245. -/
theorem C10_two_digit_promotion (text : String) (n : Nat)
    (hmem : n ∈ scanAll lvAnyD3At (part000AllText text) ++
      scanAll lvAnyD2At (part000AllText text) ++
      scanAll levelAnyD23At (part000AllText text))
    (h40 : 40 ≤ n) (h99 : n ≤ 99) :
    (200 + n) ∈ part000LevelCands text ∧
    (part000_parseOCRText "lv 45").level = some 245 := by
  have hpb : promoteBound n = some (200 + n) := by
    simp only [promoteBound, Bool.and_eq_true, decide_eq_true_eq]
    rw [if_pos (by omega : 40 ≤ n ∧ n ≤ 99), if_pos (by omega : 200 ≤ 200 + n ∧ 200 + n ≤ 300)]
  refine ⟨?_, by decide⟩
  have hlv : (200 + n) ∈ part000LvCands (part000AllText text) :=
    List.mem_filterMap.mpr ⟨n, hmem, hpb⟩
  exact List.mem_append_left _ (List.mem_append_left _ hlv)

/-- Witness for C10: the reading 45 from "lv 45" is promoted into the
candidate 245. -/
theorem C10_two_digit_promotion_witness :
    (245 ∈ part000LevelCands "lv 45") ∧
    (part000_parseOCRText "lv 45").level = some 245 :=
  C10_two_digit_promotion "lv 45" 45 (by decide) (by decide) (by decide)

/-! ## Theorems for C6 (all-variants-fail aggregation) -/

/-- C6 (amended): when every per-variant recognition fails (throws), both
recognition aggregators return empty text with confidence 0 as an ordinary
value, and the downstream extractors on empty text yield a candidate with
absent tag and absent level.  (A variant that succeeds with empty text is
still counted and keeps its confidence; see the counterexample.) -/
theorem C6_all_variants_fail (outcomes : List (Option (String × Nat)))
    (h : ∀ o ∈ outcomes, o = none) :
    extractTextAggregate outcomes = ("", 0) ∧
    tesseractOCRAggregate outcomes = ("", 0) ∧
    (ocrjs_parseOCRText "").cls = none ∧ (ocrjs_parseOCRText "").level = none ∧
    (part000_parseOCRText "").cls = none ∧ (part000_parseOCRText "").level = none := by
  have hfm : outcomes.filterMap id = [] := by
    rw [List.filterMap_eq_nil_iff]
    exact h
  refine ⟨?_, ?_, by decide, by decide, by decide, by decide⟩
  · simp [extractTextAggregate, hfm]
    rfl
  · simp [tesseractOCRAggregate, hfm]

/-- Witness for C6 at five thrown variants. -/
theorem C6_all_variants_fail_witness :
    extractTextAggregate [none, none, none, none, none] = ("", 0) ∧
    tesseractOCRAggregate [none, none, none, none, none] = ("", 0) ∧
    (ocrjs_parseOCRText "").cls = none ∧ (ocrjs_parseOCRText "").level = none ∧
    (part000_parseOCRText "").cls = none ∧ (part000_parseOCRText "").level = none :=
  C6_all_variants_fail [none, none, none, none, none] (by decide)

/-- Counterexample to C6 as stated: a variant that succeeds but recognizes
no text ("" with confidence 80) still counts as a result, so the
recognition stage reports confidence 80, not 0, although zero variants
produced any text. -/
theorem C6_counterexample :
    extractTextAggregate [some ("", 80), none, none, none, none] ≠ ("", 0) ∧
    tesseractOCRAggregate [some ("", 80), none, none, none] ≠ ("", 0) := by
  constructor
  · intro h
    have : (80 : Nat) = 0 := congrArg Prod.snd h
    cases this
  · intro h
    have : (80 : Nat) = 0 := congrArg Prod.snd h
    cases this

/-! ## Theorems for C4 (tag detection) -/

/-- C4 (amended): in the src/src/ocr.js parser, tag detection reports the
target tag exactly when the normalized text contains one of the pattern
words ("kain" or a documented misread) as a whole word; each documented
misread independently matches, a clearly different word does not, and a
substring occurrence inside a longer word does not count there.  In the
unnamed variant parser the patterns are plain substring tests, so tag
detection reports the target exactly when some pattern string occurs as a
substring of its three-projection text — including inside longer words. -/
theorem C4_tag_detection (text : String) :
    ((ocrjs_parseOCRText text).cls = some "kain" ↔
      ∃ w ∈ ocrjsClassWords, WordOccurs (normalizeWs text) w.data)
    ∧ ((part000_parseOCRText text).cls = some "kain" ↔
      ∃ w ∈ part000ClassSubs, SubOccurs (part000AllText text) w.data)
    ∧ (ocrjs_parseOCRText "kam").cls = some "kain"
    ∧ (ocrjs_parseOCRText "kaln").cls = some "kain"
    ∧ (ocrjs_parseOCRText "kaim").cls = some "kain"
    ∧ (ocrjs_parseOCRText "kajn").cls = some "kain"
    ∧ (ocrjs_parseOCRText "ka1n").cls = some "kain"
    ∧ (ocrjs_parseOCRText "warrior").cls = none
    ∧ (part000_parseOCRText "warrior").cls = none := by
  have hwords : ∀ w ∈ ocrjsClassWords, w.data ≠ [] := by decide
  refine ⟨?_, ?_, by decide, by decide, by decide, by decide, by decide, by decide, by decide⟩
  · rw [ocrjs_cls_eq]
    constructor
    · intro h
      by_cases hany :
          ocrjsClassWords.any (fun w => containsWordL (normalizeWs text) w.data) = true
      · obtain ⟨w, hwmem, hwcont⟩ := List.any_eq_true.mp hany
        refine ⟨w, hwmem, ?_⟩
        obtain ⟨a, b, hab, hpc, hb⟩ :=
          (containsWordAux_iff w.data (hwords w hwmem) _ none).mp hwcont
        refine ⟨a, b, hab, ?_, hb⟩
        rcases hpc with ⟨rfl, _⟩ | h2
        · exact Or.inl rfl
        · exact Or.inr h2
      · rw [if_neg hany] at h
        cases h
    · rintro ⟨w, hwmem, a, b, hab, ha, hb⟩
      have hcont : containsWordL (normalizeWs text) w.data = true := by
        rw [containsWordL]
        apply (containsWordAux_iff w.data (hwords w hwmem) _ none).mpr
        refine ⟨a, b, hab, ?_, hb⟩
        rcases ha with rfl | h2
        · exact Or.inl ⟨rfl, rfl⟩
        · exact Or.inr h2
      rw [if_pos (List.any_eq_true.mpr ⟨w, hwmem, hcont⟩)]
  · rw [part000_cls_eq]
    constructor
    · intro h
      by_cases hany :
          part000ClassSubs.any (fun w => listContainsSub w.data (part000AllText text)) = true
      · obtain ⟨w, hm, hc⟩ := List.any_eq_true.mp hany
        exact ⟨w, hm, (listContainsSub_iff w.data _).mp hc⟩
      · rw [if_neg hany] at h
        cases h
    · rintro ⟨w, hm, hocc⟩
      rw [if_pos (List.any_eq_true.mpr ⟨w, hm, (listContainsSub_iff w.data _).mpr hocc⟩)]

/-- Counterexample to C4 as stated: "akainu" contains the target tag only
inside a longer word, yet the unnamed variant parser still reports the
tag (its patterns are substring tests), while the src/src/ocr.js parser
correctly reports no tag. -/
theorem C4_counterexample :
    (part000_parseOCRText "akainu").cls = some "kain" ∧
    (ocrjs_parseOCRText "akainu").cls = none :=
  ⟨by decide, by decide⟩

/-- Witness for C4: the exact word "kain" is a word-boundary occurrence,
so the ocr.js parser reports the tag. -/
theorem C4_tag_detection_witness :
    (ocrjs_parseOCRText "kain").cls = some "kain" :=
  ((C4_tag_detection "kain").1).mpr
    ⟨"kain", by decide, [], [], by decide, Or.inl rfl, Or.inl rfl⟩

end KainBot
